import Mathlib

/-!
Verification of the MolecularSimilarity repository against its specification.

The development shallowly embeds the three source files:
* `model_factory.py` — a lazily populated name-keyed model registry;
* `add_activity.py` — a two-file line-zip joining scores with activity labels;
* `compute_descriptors.py` — a per-record descriptor-computation loop.

Python dictionaries are embedded as association lists with in-place overwrite
(matching CPython's insertion-order preserving update), exceptions as `Except`,
and the observable side effects that the claims quantify over (constructor
invocations, discovery runs, stream writes, log messages) are recorded
explicitly in the state, so that "invoked exactly once" and "logged as
invalid" become provable statements.
-/

namespace MolecularSimilarity

/-! Embedding of Python string-keyed dicts -/

/-- Python dict assignment `m[k] = v`: overwrite in place when the key is present,
append otherwise (CPython keeps the key's original position on update). -/
def dictInsert (m : List (String × Nat)) (k : String) (v : Nat) :
    List (String × Nat) :=
  match m with
  | [] => [(k, v)]
  | (k₁, v₁) :: rest =>
    if k₁ = k then (k, v) :: rest else (k₁, v₁) :: dictInsert rest k v

/-- Python dict lookup `m[k]`; `none` is a raised `KeyError`. -/
def dictLookup (m : List (String × Nat)) (k : String) : Option Nat :=
  match m with
  | [] => none
  | (k₁, v₁) :: rest => if k₁ = k then some v₁ else dictLookup rest k

theorem dictLookup_dictInsert (m : List (String × Nat)) (k k' : String) (v : Nat) :
    dictLookup (dictInsert m k v) k' =
      if k' = k then some v else dictLookup m k' := by
  induction m with
  | nil =>
    by_cases h : k' = k
    · simp [dictInsert, dictLookup, h]
    · simp [dictInsert, dictLookup, h, Ne.symm h]
  | cons hd tl ih =>
    obtain ⟨k₁, v₁⟩ := hd
    by_cases h₁ : k₁ = k
    · subst h₁
      by_cases h₂ : k' = k₁
      · simp [dictInsert, dictLookup, h₂]
      · simp [dictInsert, dictLookup, h₂, Ne.symm h₂]
    · by_cases h₃ : k₁ = k'
      · have hne : ¬ k' = k := fun hh => h₁ (h₃.trans hh)
        simp [dictInsert, dictLookup, h₁, h₃, hne]
      · simp [dictInsert, dictLookup, h₁, h₃, ih]

theorem dictInsert_ne_nil (m : List (String × Nat)) (k : String) (v : Nat) :
    dictInsert m k v ≠ [] := by
  cases m with
  | nil => simp [dictInsert]
  | cons hd tl =>
    obtain ⟨k₁, v₁⟩ := hd
    by_cases h : k₁ = k <;> simp [dictInsert, h]

/-! Embedding of `model_factory.py` -/

/-- A model instance returned by a constructor.  `ctor` identifies the
constructor that produced it; `serial` is the identity of the object, fresh
each invocation (Python object identity). -/
structure ModelInstance where
  ctor : Nat
  serial : Nat
deriving DecidableEq, Repr

/-- Process state of `model_factory.py`.  `registry` is the module-level
`_required_models` dict (constructors identified by `Nat`).  The other fields
record observable effects: `invoked` lists every constructor invocation in
order, `fresh` supplies the identity of the next constructed instance, and
`discoveries` counts how many times `_discover_models` has run. -/
structure FactoryState where
  registry : List (String × Nat)
  invoked : List Nat
  fresh : Nat
  discoveries : Nat
deriving DecidableEq, Repr

/-- Module-load state: `_required_models` is the empty dict. -/
def initState : FactoryState :=
  { registry := [], invoked := [], fresh := 0, discoveries := 0 }

/-- Source `register_model(name, constructor)`: `_required_models[name] = constructor`. -/
def register_model (name : String) (constructor : Nat) (s : FactoryState) :
    FactoryState :=
  { s with registry := dictInsert s.registry name constructor }

/-- Modelled from the spec: the model modules imported by `_discover_models`
are not under src/; per the spec each self-registers one (name, constructor)
pair at import time, with these names (spec §6 registration table, one per
imported module, in import order).  Constructor identifiers are arbitrary
distinct tags. -/
def discoveryEntries : List (String × Nat) :=
  [("active_index", 0), ("descriptors", 1), ("rdkit_ecfp", 2),
   ("rdkt_fcfp", 3), ("rdkit_tt", 4), ("rdkit_ap", 5), ("control", 6),
   ("active_inactive_index", 7), ("linear_regression", 8),
   ("decision_tree", 9), ("nbit_ecfp", 10), ("nbit_fcfp", 11),
   ("nbit_ap", 12), ("nbit_ecfp2", 13), ("nbit_fcfp2", 14), ("nbit_tt", 15),
   ("equivalent_class", 16), ("baseline", 17), ("ecfp_pair", 18)]

/-- Source `_discover_models()`: importing each model module registers it. -/
def discover_models (s : FactoryState) : FactoryState :=
  let s₁ := discoveryEntries.foldl (fun t e => register_model e.1 e.2 t) s
  { s₁ with discoveries := s₁.discoveries + 1 }

/-- Invoking constructor `c` with no arguments: records the invocation and
returns a freshly identified instance. -/
def invokeConstructor (c : Nat) (s : FactoryState) :
    ModelInstance × FactoryState :=
  (⟨c, s.fresh⟩, { s with invoked := s.invoked ++ [c], fresh := s.fresh + 1 })

/-- The `KeyError` raised by `_required_models[name]` on a missing name. -/
inductive FactoryError where
  | keyNotFound
deriving DecidableEq, Repr

/-- Source `create_model(name)`: if `_required_models == {}` run discovery, then look
the name up (raising `KeyError` when absent — the discovery side effect
persists) and invoke the constructor with no arguments. -/
def create_model (name : String) (s : FactoryState) :
    Except FactoryError ModelInstance × FactoryState :=
  let s₁ := if s.registry = [] then discover_models s else s
  match dictLookup s₁.registry name with
  | none => (.error .keyNotFound, s₁)
  | some c =>
    let (inst, s₂) := invokeConstructor c s₁
    (.ok inst, s₂)

/-- A sequence of `create_model` calls, keeping only the state. -/
def createMany (names : List String) (s : FactoryState) : FactoryState :=
  names.foldl (fun t n => (create_model n t).2) s

/-- The public operations of the factory module. -/
inductive FactoryOp where
  | reg (name : String) (constructor : Nat)
  | create (name : String)
deriving DecidableEq, Repr

def runOp (s : FactoryState) (op : FactoryOp) : FactoryState :=
  match op with
  | .reg n c => register_model n c s
  | .create n => (create_model n s).2

def runOps (ops : List FactoryOp) (s : FactoryState) : FactoryState :=
  ops.foldl runOp s

/-! Registry lemmas -/

theorem register_model_registry_ne_nil (n : String) (c : Nat) (s : FactoryState) :
    (register_model n c s).registry ≠ [] :=
  dictInsert_ne_nil s.registry n c

theorem foldlRegister_registry_ne_nil (es : List (String × Nat))
    (s : FactoryState) (h : s.registry ≠ []) :
    ((es.foldl (fun t e => register_model e.1 e.2 t) s)).registry ≠ [] := by
  induction es generalizing s with
  | nil => exact h
  | cons e rest ih =>
    exact ih (register_model e.1 e.2 s) (register_model_registry_ne_nil e.1 e.2 s)

theorem foldlRegister_registry_ne_nil_of_cons (e : String × Nat)
    (rest : List (String × Nat)) (s : FactoryState) :
    (((e :: rest).foldl (fun t e => register_model e.1 e.2 t) s)).registry ≠ [] := by
  rw [List.foldl_cons]
  exact foldlRegister_registry_ne_nil rest _
    (register_model_registry_ne_nil e.1 e.2 s)

theorem discover_models_registry_ne_nil (s : FactoryState) :
    (discover_models s).registry ≠ [] := by
  simp only [discover_models]
  simp only [discoveryEntries]
  exact foldlRegister_registry_ne_nil_of_cons _ _ s

theorem foldlRegister_lookup_of_not_mem (es : List (String × Nat))
    (s : FactoryState) (n : String) (h : n ∉ es.map Prod.fst) :
    dictLookup ((es.foldl (fun t e => register_model e.1 e.2 t) s)).registry n =
      dictLookup s.registry n := by
  induction es generalizing s with
  | nil => rfl
  | cons e rest ih =>
    have hn : n ≠ e.1 := by
      intro hh
      exact h (by simp [hh])
    have hrest : n ∉ rest.map Prod.fst := by
      intro hh
      exact h (by simp [hh])
    rw [List.foldl_cons, ih _ hrest]
    simp [register_model, dictLookup_dictInsert, hn]

theorem register_model_lookup_isSome (m : String) (c : Nat) (s : FactoryState)
    (n : String) (h : (dictLookup s.registry n).isSome) :
    (dictLookup (register_model m c s).registry n).isSome := by
  by_cases hn : n = m <;>
    simp [register_model, dictLookup_dictInsert, hn, h]

theorem foldlRegister_lookup_isSome_of_mem (es : List (String × Nat))
    (s : FactoryState) (n : String) :
    (n ∈ es.map Prod.fst ∨ (dictLookup s.registry n).isSome) →
    (dictLookup ((es.foldl (fun t e => register_model e.1 e.2 t) s)).registry n).isSome := by
  induction es generalizing s with
  | nil =>
    intro h
    rcases h with h | h
    · simp at h
    · exact h
  | cons e rest ih =>
    intro h
    rw [List.foldl_cons]
    apply ih
    rcases h with h | h
    · rcases List.mem_map.mp h with ⟨e₁, he₁, hfst⟩
      rcases List.mem_cons.mp he₁ with rfl | hmem
      · right
        simp [register_model, dictLookup_dictInsert, hfst.symm]
      · left
        exact List.mem_map.mpr ⟨e₁, hmem, hfst⟩
    · right
      exact register_model_lookup_isSome e.1 e.2 s n h

theorem create_model_snd_registry (n : String) (s : FactoryState) :
    ((create_model n s).2).registry =
      (if s.registry = [] then discover_models s else s).registry := by
  unfold create_model
  cases h :
      dictLookup (if s.registry = [] then discover_models s else s).registry n <;>
    simp [h, invokeConstructor]

theorem create_model_snd_discoveries (n : String) (s : FactoryState) :
    ((create_model n s).2).discoveries =
      (if s.registry = [] then discover_models s else s).discoveries := by
  unfold create_model
  cases h :
      dictLookup (if s.registry = [] then discover_models s else s).registry n <;>
    simp [h, invokeConstructor]

theorem create_model_snd_of_ne_nil (n : String) (s : FactoryState)
    (h : s.registry ≠ []) :
    ((create_model n s).2).registry = s.registry ∧
      ((create_model n s).2).discoveries = s.discoveries := by
  refine ⟨?_, ?_⟩
  · rw [create_model_snd_registry, if_neg h]
  · rw [create_model_snd_discoveries, if_neg h]

theorem create_model_registry_ne_nil (n : String) (s : FactoryState) :
    ((create_model n s).2).registry ≠ [] := by
  rw [create_model_snd_registry]
  by_cases hE : s.registry = []
  · rw [if_pos hE]
    exact discover_models_registry_ne_nil s
  · rw [if_neg hE]
    exact hE

theorem create_model_of_lookup (n : String) (s : FactoryState) (c : Nat)
    (hne : s.registry ≠ []) (h : dictLookup s.registry n = some c) :
    create_model n s =
      (Except.ok ⟨c, s.fresh⟩,
       { s with invoked := s.invoked ++ [c], fresh := s.fresh + 1 }) := by
  simp [create_model, if_neg hne, h, invokeConstructor]

theorem createMany_registry (names : List String) (s : FactoryState)
    (h : s.registry ≠ []) :
    (createMany names s).registry = s.registry := by
  induction names generalizing s with
  | nil => rfl
  | cons m rest ih =>
    show (createMany rest (create_model m s).2).registry = s.registry
    rw [ih _ (create_model_registry_ne_nil m s)]
    exact (create_model_snd_of_ne_nil m s h).1

theorem discover_models_lookup_of_not_mem (s : FactoryState) (n : String)
    (h : n ∉ discoveryEntries.map Prod.fst) :
    dictLookup (discover_models s).registry n = dictLookup s.registry n := by
  simp only [discover_models]
  exact foldlRegister_lookup_of_not_mem discoveryEntries s n h

theorem discover_models_lookup_isSome_of_mem (s : FactoryState) (n : String)
    (h : n ∈ discoveryEntries.map Prod.fst) :
    (dictLookup (discover_models s).registry n).isSome := by
  simp only [discover_models]
  exact foldlRegister_lookup_isSome_of_mem discoveryEntries s n (Or.inl h)

theorem foldlRegister_discoveries (es : List (String × Nat)) (s : FactoryState) :
    ((es.foldl (fun t e => register_model e.1 e.2 t) s)).discoveries =
      s.discoveries := by
  induction es generalizing s with
  | nil => rfl
  | cons e rest ih =>
    rw [List.foldl_cons, ih]
    rfl

theorem discover_models_discoveries (s : FactoryState) :
    (discover_models s).discoveries = s.discoveries + 1 := by
  simp only [discover_models]
  rw [foldlRegister_discoveries]

theorem create_model_fst_of_lookup_none (n : String) (s : FactoryState)
    (h : dictLookup (if s.registry = [] then discover_models s else s).registry n
      = none) :
    create_model n s =
      (Except.error FactoryError.keyNotFound,
       if s.registry = [] then discover_models s else s) := by
  simp [create_model, h]

/-! Process invariants -/

/-- Discovery has run at most once, and once it has run the registry can
never be empty again (so the emptiness guard cannot fire a second time). -/
def FactoryInv (s : FactoryState) : Prop :=
  s.discoveries ≤ 1 ∧ (s.discoveries = 1 → s.registry ≠ [])

theorem factoryInv_init : FactoryInv initState :=
  ⟨Nat.zero_le 1, fun h => absurd h (by simp [initState])⟩

theorem runOp_preserves_FactoryInv (s : FactoryState) (op : FactoryOp)
    (h : FactoryInv s) : FactoryInv (runOp s op) := by
  cases op with
  | reg m c =>
    exact ⟨h.1, fun _ => register_model_registry_ne_nil m c s⟩
  | create m =>
    obtain ⟨hle, himp⟩ := h
    by_cases hE : s.registry = []
    · have hd : s.discoveries = 0 := by
        by_cases h1 : s.discoveries = 1
        · exact absurd hE (himp h1)
        · omega
      have hdisc : ((create_model m s).2).discoveries = 1 := by
        rw [create_model_snd_discoveries, if_pos hE, discover_models_discoveries,
          hd]
      exact ⟨by rw [show (runOp s (FactoryOp.create m)).discoveries
          = ((create_model m s).2).discoveries from rfl, hdisc],
        fun _ => create_model_registry_ne_nil m s⟩
    · have heq := create_model_snd_of_ne_nil m s hE
      refine ⟨?_, fun _ => create_model_registry_ne_nil m s⟩
      rw [show (runOp s (FactoryOp.create m)).discoveries
          = ((create_model m s).2).discoveries from rfl, heq.2]
      exact hle

theorem runOps_preserves_FactoryInv (ops : List FactoryOp) (s : FactoryState)
    (h : FactoryInv s) : FactoryInv (runOps ops s) := by
  induction ops generalizing s with
  | nil => exact h
  | cons op rest ih => exact ih (runOp s op) (runOp_preserves_FactoryInv s op h)

theorem runOp_reg_nodisc (s : FactoryState) (op : FactoryOp)
    (h₁ : s.registry ≠ []) (h₂ : s.discoveries = 0) :
    (runOp s op).registry ≠ [] ∧ (runOp s op).discoveries = 0 := by
  cases op with
  | reg m c => exact ⟨register_model_registry_ne_nil m c s, h₂⟩
  | create m =>
    exact ⟨create_model_registry_ne_nil m s,
      ((create_model_snd_of_ne_nil m s h₁).2).trans h₂⟩

theorem runOps_reg_nodisc (ops : List FactoryOp) (s : FactoryState)
    (h₁ : s.registry ≠ []) (h₂ : s.discoveries = 0) :
    (runOps ops s).registry ≠ [] ∧ (runOps ops s).discoveries = 0 := by
  induction ops generalizing s with
  | nil => exact ⟨h₁, h₂⟩
  | cons op rest ih =>
    have h := runOp_reg_nodisc s op h₁ h₂
    exact ih (runOp s op) h.1 h.2

/-! Embedding of `add_activity.py`

The activity file holds JSON lines whose `"activity"` field is a list; the
score file holds JSON lines with `"name"` and `"score"` fields.  Files are
embedded as the lists of their parsed lines; JSON numeric payloads are
embedded as `Int`. -/

/-- A parsed line of the activity file; only its `"activity"` field is read. -/
structure ActivityLine where
  activity : List Int
deriving DecidableEq, Repr

/-- A parsed line of the score file (`"name"` and `"score"` fields). -/
structure ScoreRecord where
  name : String
  score : Int
deriving DecidableEq, Repr

/-- A record dumped to the output file by `write_to_json`. -/
structure OutRecord where
  name : String
  score : Int
  activity : Int
deriving DecidableEq, Repr

/-- Source `read_activity(input_activity)`: the Python for-loop returns on its first
iteration with line one's `"activity"` field; on an empty file the loop body
never runs and the function falls through, returning `None`. -/
def read_activity (lines : List ActivityLine) : Option (List Int) :=
  match lines with
  | [] => none
  | l :: _ => some l.activity

/-- Source `write_to_json(input_score, activity, output_file)`: for each score line
`num`, dump `{"name": score["name"], "score": score["score"],
"activity": activity[num]}`.  `activity[num]` out of range raises an
`IndexError` (`none`). -/
def write_to_json (scores : List ScoreRecord) (activity : List Int) :
    Option (List OutRecord) :=
  writeLoop scores activity 0
where
  /-- The `for num, line in enumerate(stream)` loop, carrying `num`. -/
  writeLoop : List ScoreRecord → List Int → Nat → Option (List OutRecord)
    | [], _, _ => some []
    | score :: rest, activity, num =>
      match activity[num]? with
      | none => none
      | some a =>
        match writeLoop rest activity (num + 1) with
        | none => none
        | some out =>
          some ({ name := score.name, score := score.score, activity := a } :: out)

/-! Embedding of `compute_descriptors.py`

Molecule construction and descriptor arithmetic are delegated to RDKit and
embedded as oracles: `parse` stands for
`MolFromSmiles(smiles, sanitize=False)` (molecules identified by `Nat`,
`none` for Python `None`), `sanitizeOk` for whether a parsed molecule
survives the non-kekulizing `SanitizeMol`, and the chosen descriptor
functions are `Nat → Int` oracles whose stringified values are joined into
CSV cells.  The source calls `SanitizeMol(molecule, ...)` on the result of
`MolFromSmiles` *before* its `molecule is None` check; `SanitizeMol` is a
signature-checked binding that raises on a `None` argument and raises
`MolSanitizeException` on a failing molecule, and `compute_descriptors`
catches neither, so these exceptions abort the run — the embedding keeps
that ordering and models the uncaught exception as an `Except.error`
carrying the state at the raise.  Stream writes and log calls are recorded
in order. -/

/-- A fragment entry of an input record (`"smiles"` and `"index"` fields). -/
structure Fragment where
  smiles : String
  index : Int
deriving DecidableEq, Repr

/-- A parsed input JSON line: a molecule SMILES and its fragment list. -/
structure MoleculeRecord where
  smiles : String
  fragments : List Fragment
deriving DecidableEq, Repr

/-- Events emitted through `logging` by `compute_descriptors`. -/
inductive LogEvent where
  | errorInvalid (smiles : String)
  | summary (invalid : Nat) (total : Nat)
deriving DecidableEq, Repr

/-- Mutable state threaded through `compute_descriptors`: the two counters,
the writes made to the current output stream, and the log. -/
structure DescState where
  invalid : Nat
  total : Nat
  out : List String
  log : List LogEvent
deriving DecidableEq, Repr

/-- The SMILES cells drawn from one input record:
in fragments mode every fragment's `"smiles"` paired with its `"index"`,
otherwise the molecule's own `"smiles"` with no index column. -/
def entriesOf (use_fragments : Bool) (rec : MoleculeRecord) :
    List (String × Option Int) :=
  if use_fragments then rec.fragments.map (fun f => (f.smiles, some f.index))
  else [(rec.smiles, none)]

/-- Exceptions raised by the RDKit sanitize call and caught nowhere in
`compute_descriptors`: `SanitizeMol` called with Python `None` fails its
signature check (an ArgumentError), and sanitizing a parsed molecule may
itself raise `MolSanitizeException`. -/
inductive RDKitError where
  | argumentNone
  | molSanitize (mol : Nat)
deriving DecidableEq, Repr

/-- RDKit `SanitizeMol(molecule, sanitizeOps=SANITIZE_ALL ^ SANITIZE_KEKULIZE)`
as invoked on the possibly-`None` result of `MolFromSmiles`: raises on
`None`, raises when the `sanitizeOk` oracle says the molecule fails the
non-kekulizing sanitization, and otherwise mutates in place, returning
nothing. -/
def sanitizeMol (sanitizeOk : Nat → Bool) (molecule : Option Nat) :
    Except RDKitError Unit :=
  match molecule with
  | none => Except.error RDKitError.argumentNone
  | some mol =>
    if sanitizeOk mol then Except.ok () else Except.error (RDKitError.molSanitize mol)

/-- The body of `for smiles in smiles_list`, in source order: write the
quoted SMILES (and the index column in fragments mode) and bump the
molecule count; call `MolFromSmiles` (the `parse` oracle); call
`SanitizeMol` on the possibly-`None` result — its exception, raised before
the `molecule is None` check, propagates uncaught, aborting the run with
the state at the raise; only past that call is `None` tested (log, count,
skip — a branch the sanitize call makes unreachable) or the comma-joined
descriptor values and a newline written. -/
def processEntry (parse : String → Option Nat) (sanitizeOk : Nat → Bool)
    (fncs : List (Nat → Int)) (entry : String × Option Int) (s : DescState) :
    Except (RDKitError × DescState) DescState :=
  let s₁ := { s with
    out := s.out ++ ["\"", entry.1, "\","] ++
      (match entry.2 with
       | some idx => [toString idx, ","]
       | none => []),
    total := s.total + 1 }
  let molecule := parse entry.1
  match sanitizeMol sanitizeOk molecule with
  | Except.error e => Except.error (e, s₁)
  | Except.ok _ =>
    match molecule with
    | none =>
      Except.ok { s₁ with
        log := s₁.log ++ [LogEvent.errorInvalid entry.1],
        invalid := s₁.invalid + 1 }
    | some mol =>
      Except.ok { s₁ with
        out := s₁.out ++
          [String.intercalate "," (fncs.map (fun fnc => toString (fnc mol))), "\n"] }

/-- The loop over one record's SMILES cells; an uncaught RDKit exception
aborts it. -/
def processEntries (parse : String → Option Nat) (sanitizeOk : Nat → Bool)
    (fncs : List (Nat → Int)) (entries : List (String × Option Int))
    (s : DescState) : Except (RDKitError × DescState) DescState :=
  match entries with
  | [] => Except.ok s
  | e :: rest =>
    match processEntry parse sanitizeOk fncs e s with
    | Except.error err => Except.error err
    | Except.ok s₁ => processEntries parse sanitizeOk fncs rest s₁

/-- The `for line in streami` loop over one input file's parsed records; an
uncaught RDKit exception aborts it. -/
def processFile (parse : String → Option Nat) (sanitizeOk : Nat → Bool)
    (fncs : List (Nat → Int)) (use_fragments : Bool)
    (records : List MoleculeRecord) (s : DescState) :
    Except (RDKitError × DescState) DescState :=
  match records with
  | [] => Except.ok s
  | rec :: rest =>
    match processEntries parse sanitizeOk fncs (entriesOf use_fragments rec) s with
    | Except.error err => Except.error err
    | Except.ok s₁ => processFile parse sanitizeOk fncs use_fragments rest s₁

/-- Source `_write_header`: `smiles,` then the index column in fragments mode, then
the comma-joined feature names and a newline. -/
def write_header (use_fragments : Bool) (used_features_names : List String) :
    List String :=
  ["smiles,"] ++ (if use_fragments then ["index,"] else []) ++
    [String.intercalate "," used_features_names, "\n"]

/-- Source `compute_descriptors`: each input file is written to its own
output stream, header first; counters and the log are shared across files;
on normal completion one final `Invalid molecules: %d/%d` summary is
logged, while an uncaught RDKit exception aborts the run before any summary
— the error carries the outputs completed so far and the state at the
raise. -/
def compute_descriptors (parse : String → Option Nat) (sanitizeOk : Nat → Bool)
    (fncs : List (Nat → Int)) (use_fragments : Bool) (names : List String)
    (files : List (List MoleculeRecord)) :
    Except (RDKitError × List (List String) × DescState)
      (List (List String) × DescState) :=
  go files [] { invalid := 0, total := 0, out := [], log := [] }
where
  /-- The `for input_file in input_files` loop, carrying the outputs of the
  already-completed files. -/
  go : List (List MoleculeRecord) → List (List String) → DescState →
      Except (RDKitError × List (List String) × DescState)
        (List (List String) × DescState)
    | [], outs, s =>
      Except.ok (outs,
        { s with log := s.log ++ [LogEvent.summary s.invalid s.total] })
    | records :: restFiles, outs, s =>
      match processFile parse sanitizeOk fncs use_fragments records
          { s with out := write_header use_fragments names } with
      | Except.error (e, t) => Except.error (e, outs, t)
      | Except.ok t => go restFiles (outs ++ [t.out]) { t with out := [] }

/-! The claims -/

/-- Claim C1: for a name `n` never registered — absent from the current
registry and not among the names the discovery procedure registers —
`create_model n` fails with the Key-Not-Found error and returns no default
model; this holds for every starting state, in particular for the empty
registry before discovery has run and for any state after discovery. -/
theorem claim1_unregistered_create_fails (s : FactoryState) (n : String)
    (h₁ : dictLookup s.registry n = none)
    (h₂ : n ∉ discoveryEntries.map Prod.fst) :
    (create_model n s).1 = Except.error FactoryError.keyNotFound := by
  by_cases hE : s.registry = []
  · have hd : dictLookup (discover_models s).registry n = none := by
      rw [discover_models_lookup_of_not_mem s n h₂]
      exact h₁
    have h := create_model_fst_of_lookup_none n s (by rw [if_pos hE]; exact hd)
    rw [h]
  · have h := create_model_fst_of_lookup_none n s (by rw [if_neg hE]; exact h₁)
    rw [h]

theorem claim1_witness :
    (dictLookup initState.registry "not_a_model" = none ∧
      "not_a_model" ∉ discoveryEntries.map Prod.fst ∧
      (create_model "not_a_model" initState).1
        = Except.error FactoryError.keyNotFound) ∧
    (dictLookup ((create_model "baseline" initState).2).registry "not_a_model"
        = none ∧
      (create_model "not_a_model" ((create_model "baseline" initState).2)).1
        = Except.error FactoryError.keyNotFound) := by
  refine ⟨⟨rfl, by decide, ?_⟩, ⟨by decide, ?_⟩⟩
  · exact claim1_unregistered_create_fails initState "not_a_model" rfl (by decide)
  · exact claim1_unregistered_create_fails ((create_model "baseline" initState).2)
      "not_a_model" (by decide) (by decide)

/-- Claim C2: discovery runs at most once per process — along any operation
sequence from the initial state the discovery counter never exceeds one —
and after a first `create_model` call (for any name, including a failing
lookup) the registry, hence its name set, is unchanged by any sequence of
subsequent `create_model` calls. -/
theorem claim2_discovery_at_most_once (ops : List FactoryOp) (s : FactoryState)
    (n : String) (ms : List String) :
    (runOps ops initState).discoveries ≤ 1 ∧
    (createMany ms ((create_model n s).2)).registry
      = ((create_model n s).2).registry := by
  constructor
  · exact (runOps_preserves_FactoryInv ops initState factoryInv_init).1
  · exact createMany_registry ms _ (create_model_registry_ne_nil n s)

/-- Claim C3: from the empty initial registry, the first `create_model` call
— whatever name it asks for — runs discovery exactly once, the discovery
list has at least 18 entries, and afterwards every name in the discovery
list resolves to a constructed instance. -/
theorem claim3_discovery_populates (n m : String)
    (h : m ∈ discoveryEntries.map Prod.fst) :
    18 ≤ discoveryEntries.length ∧
    ((create_model n initState).2).discoveries = 1 ∧
    ∃ inst, (create_model m ((create_model n initState).2)).1
      = Except.ok inst := by
  have h0 : initState.registry = [] := rfl
  refine ⟨by decide, ?_, ?_⟩
  · rw [create_model_snd_discoveries]
    rw [if_pos h0]
    rw [discover_models_discoveries]
    rfl
  · have hreg : ((create_model n initState).2).registry
        = (discover_models initState).registry := by
      rw [create_model_snd_registry, if_pos h0]
    have hsome : (dictLookup ((create_model n initState).2).registry m).isSome := by
      rw [hreg]
      exact discover_models_lookup_isSome_of_mem initState m h
    obtain ⟨c, hc⟩ := Option.isSome_iff_exists.mp hsome
    have hne : ((create_model n initState).2).registry ≠ [] :=
      create_model_registry_ne_nil n initState
    refine ⟨⟨c, ((create_model n initState).2).fresh⟩, ?_⟩
    rw [create_model_of_lookup m ((create_model n initState).2) c hne hc]

theorem claim3_witness :
    "baseline" ∈ discoveryEntries.map Prod.fst ∧
    (18 ≤ discoveryEntries.length ∧
      ((create_model "baseline" initState).2).discoveries = 1 ∧
      ∃ inst, (create_model "baseline"
        ((create_model "baseline" initState).2)).1 = Except.ok inst) :=
  ⟨by decide, claim3_discovery_populates "baseline" "baseline" (by decide)⟩

/-- Claim C4: `register_model n c₁` then `register_model n c₂` makes every
subsequent `create_model n` — after any interleaved sequence of further
`create_model` calls — invoke `c₂`, not `c₁`: the returned instance carries
constructor `c₂` and exactly `c₂` is appended to the invocation log. -/
theorem claim4_reregister_overwrites (s : FactoryState) (n : String)
    (c₁ c₂ : Nat) (ms : List String) :
    (create_model n (createMany ms (register_model n c₂ (register_model n c₁ s)))).1
      = Except.ok ⟨c₂,
          (createMany ms (register_model n c₂ (register_model n c₁ s))).fresh⟩ ∧
    ((create_model n (createMany ms (register_model n c₂ (register_model n c₁ s)))).2).invoked
      = (createMany ms (register_model n c₂ (register_model n c₁ s))).invoked
          ++ [c₂] := by
  have hreg : (createMany ms (register_model n c₂ (register_model n c₁ s))).registry
      = (register_model n c₂ (register_model n c₁ s)).registry :=
    createMany_registry ms _ (register_model_registry_ne_nil n c₂ _)
  have hlook :
      dictLookup (register_model n c₂ (register_model n c₁ s)).registry n
        = some c₂ := by
    show dictLookup
      (dictInsert (register_model n c₁ s).registry n c₂) n = some c₂
    rw [dictLookup_dictInsert]
    simp
  have hlook₂ :
      dictLookup (createMany ms (register_model n c₂ (register_model n c₁ s))).registry n
        = some c₂ := by
    rw [hreg]
    exact hlook
  have hne :
      (createMany ms (register_model n c₂ (register_model n c₁ s))).registry ≠ [] := by
    rw [hreg]
    exact register_model_registry_ne_nil n c₂ _
  rw [create_model_of_lookup n _ c₂ hne hlook₂]
  exact ⟨rfl, rfl⟩

/-- Claim C5: when `c` is the constructor currently registered for `n`, each
`create_model n` call invokes `c` with no arguments exactly once (one entry
is appended to the invocation log) and returns that invocation's result;
instances are not cached — a second call constructs a distinct instance. -/
theorem claim5_create_invokes_exactly_once (s : FactoryState) (n : String)
    (c : Nat) (h : dictLookup s.registry n = some c) :
    (create_model n s).1 = Except.ok ⟨c, s.fresh⟩ ∧
    ((create_model n s).2).invoked = s.invoked ++ [c] ∧
    (create_model n ((create_model n s).2)).1 = Except.ok ⟨c, s.fresh + 1⟩ ∧
    (⟨c, s.fresh⟩ : ModelInstance) ≠ ⟨c, s.fresh + 1⟩ := by
  have hne : s.registry ≠ [] := by
    intro hnil
    rw [hnil] at h
    exact Option.noConfusion h
  have h₁ := create_model_of_lookup n s c hne h
  refine ⟨by rw [h₁], by rw [h₁], ?_, ?_⟩
  · rw [h₁]
    have h₂ := create_model_of_lookup n
      { s with invoked := s.invoked ++ [c], fresh := s.fresh + 1 } c hne h
    rw [h₂]
  · intro hEq
    have hs := congrArg ModelInstance.serial hEq
    simp at hs

theorem claim5_witness :
    dictLookup (register_model "baseline" 7 initState).registry "baseline"
      = some 7 ∧
    ((create_model "baseline" (register_model "baseline" 7 initState)).1
        = Except.ok ⟨7, (register_model "baseline" 7 initState).fresh⟩ ∧
      ((create_model "baseline" (register_model "baseline" 7 initState)).2).invoked
        = (register_model "baseline" 7 initState).invoked ++ [7] ∧
      (create_model "baseline"
          ((create_model "baseline" (register_model "baseline" 7 initState)).2)).1
        = Except.ok ⟨7, (register_model "baseline" 7 initState).fresh + 1⟩ ∧
      (⟨7, (register_model "baseline" 7 initState).fresh⟩ : ModelInstance)
        ≠ ⟨7, (register_model "baseline" 7 initState).fresh + 1⟩) :=
  ⟨by decide,
    claim5_create_invokes_exactly_once (register_model "baseline" 7 initState)
      "baseline" 7 (by decide)⟩

/-- Claim C6: `register_model` is total by construction (it is a plain state
function with no error outcome): for every name and constructor it inserts
or overwrites the entry for that name — lookups of the registered name now
yield the new constructor, all other names are untouched, with no
duplicate-name validation — and it has no other effect on the state. -/
theorem claim6_register_total (s : FactoryState) (n : String) (c : Nat)
    (m : String) :
    dictLookup (register_model n c s).registry m
      = (if m = n then some c else dictLookup s.registry m) ∧
    (register_model n c s).invoked = s.invoked ∧
    (register_model n c s).fresh = s.fresh ∧
    (register_model n c s).discoveries = s.discoveries :=
  ⟨dictLookup_dictInsert s.registry n m c, rfl, rfl, rfl⟩

/-- Claim C9: neither public operation ever removes a registry entry — any
name resolvable before an operation is resolvable after it, and a non-empty
registry stays non-empty — and a `register_model` issued before the first
`create_model` suppresses discovery for the whole process: the discovery
counter stays at zero along every continuation. -/
theorem claim9_registry_monotone (s : FactoryState) (op : FactoryOp)
    (k n : String) (c : Nat) (rest : List FactoryOp) :
    ((dictLookup s.registry k).isSome →
      (dictLookup (runOp s op).registry k).isSome) ∧
    (s.registry ≠ [] → (runOp s op).registry ≠ []) ∧
    (runOps (FactoryOp.reg n c :: rest) initState).discoveries = 0 := by
  refine ⟨?_, ?_, ?_⟩
  · intro h
    cases op with
    | reg m c' => exact register_model_lookup_isSome m c' s k h
    | create m =>
      by_cases hE : s.registry = []
      · rw [hE] at h
        simp [dictLookup] at h
      · show (dictLookup ((create_model m s).2).registry k).isSome
        rw [(create_model_snd_of_ne_nil m s hE).1]
        exact h
  · intro h
    cases op with
    | reg m c' => exact register_model_registry_ne_nil m c' s
    | create m => exact create_model_registry_ne_nil m s
  · show (runOps rest (runOp initState (FactoryOp.reg n c))).discoveries = 0
    exact (runOps_reg_nodisc rest (register_model n c initState)
      (register_model_registry_ne_nil n c initState) rfl).2

theorem claim9_witness :
    (dictLookup (runOp (register_model "active_index" 3 initState)
        (FactoryOp.create "active_index")).registry "active_index").isSome ∧
    (runOp (register_model "active_index" 3 initState)
        (FactoryOp.create "active_index")).registry ≠ [] ∧
    (runOps [FactoryOp.reg "active_index" 3, FactoryOp.create "baseline"]
        initState).discoveries = 0 := by
  have h := claim9_registry_monotone (register_model "active_index" 3 initState)
    (FactoryOp.create "active_index") "active_index" "active_index" 3
    [FactoryOp.create "baseline"]
  exact ⟨h.1 (by decide), h.2.1 (by decide), h.2.2⟩

theorem writeLoop_spec (scores : List ScoreRecord) (activity : List Int)
    (num : Nat) (h : num + scores.length ≤ activity.length) :
    ∃ out, write_to_json.writeLoop scores activity num = some out ∧
      out.length = scores.length ∧
      ∀ i, i < scores.length →
        ∃ sc a, scores[i]? = some sc ∧ activity[num + i]? = some a ∧
          out[i]? = some { name := sc.name, score := sc.score, activity := a } := by
  induction scores generalizing num with
  | nil =>
    exact ⟨[], rfl, rfl, fun i hi => absurd hi (Nat.not_lt_zero i)⟩
  | cons score rest ih =>
    have hnum : num < activity.length := by
      simp only [List.length_cons] at h
      omega
    have ha : activity[num]? = some (activity[num]) :=
      List.getElem?_eq_getElem hnum
    obtain ⟨out, hout, hlen, hidx⟩ := ih (num + 1) (by
      simp only [List.length_cons] at h
      omega)
    refine ⟨(⟨score.name, score.score, activity[num]⟩ : OutRecord) :: out,
      ?_, ?_, ?_⟩
    · simp only [write_to_json.writeLoop, ha, hout]
    · simp [hlen]
    · intro i hi
      cases i with
      | zero =>
        refine ⟨score, activity[num], by simp, ?_, by simp⟩
        rw [Nat.add_zero]
        exact ha
      | succ j =>
        have hj : j < rest.length := by
          simp only [List.length_cons] at hi
          omega
        obtain ⟨sc, a', h₁, h₂, h₃⟩ := hidx j hj
        refine ⟨sc, a', by simpa using h₁, ?_, by simpa using h₃⟩
        have harith : num + (j + 1) = num + 1 + j := by omega
        rw [harith]
        exact h₂

/-- Claim C7: `write_to_json` is a two-file line-zip — when the activity
list covers the score lines it succeeds, emits one output record per score
line in the same order, and the `i`-th record takes `"name"` and `"score"`
from the `i`-th score line and `"activity"` from the `i`-th activity
element. -/
theorem claim7_line_zip (scores : List ScoreRecord) (activity : List Int)
    (h : scores.length ≤ activity.length) :
    ∃ out, write_to_json scores activity = some out ∧
      out.length = scores.length ∧
      ∀ i, i < scores.length →
        ∃ sc a, scores[i]? = some sc ∧ activity[i]? = some a ∧
          out[i]? = some { name := sc.name, score := sc.score, activity := a } := by
  obtain ⟨out, hout, hlen, hidx⟩ := writeLoop_spec scores activity 0 (by omega)
  refine ⟨out, hout, hlen, fun i hi => ?_⟩
  obtain ⟨sc, a, h₁, h₂, h₃⟩ := hidx i hi
  refine ⟨sc, a, h₁, ?_, h₃⟩
  rw [show i = 0 + i from by omega]
  exact h₂

theorem claim7_witness :
    ([(⟨"mol1", 4⟩ : ScoreRecord), ⟨"mol2", 9⟩].length
      ≤ [(5 : Int), 6, 7].length) ∧
    (∃ out,
      write_to_json [(⟨"mol1", 4⟩ : ScoreRecord), ⟨"mol2", 9⟩] [(5 : Int), 6, 7]
        = some out ∧
      out.length = [(⟨"mol1", 4⟩ : ScoreRecord), ⟨"mol2", 9⟩].length ∧
      ∀ i, i < [(⟨"mol1", 4⟩ : ScoreRecord), ⟨"mol2", 9⟩].length →
        ∃ sc a, [(⟨"mol1", 4⟩ : ScoreRecord), ⟨"mol2", 9⟩][i]? = some sc ∧
          [(5 : Int), 6, 7][i]? = some a ∧
          out[i]? = some { name := sc.name, score := sc.score, activity := a }) :=
  ⟨by decide, claim7_line_zip _ _ (by decide)⟩

/-- Claim C8: the claimed per-record recovery (log the invalid record, bump
the invalid counter, skip it, continue, end with an invalid/total summary)
is the visible intent of the `molecule is None` branch and the final
summary log, but the code calls `SanitizeMol` on the result of
`MolFromSmiles` *before* that check and the call raises uncaught on an
invalid SMILES.  Evaluating the embedding at a concrete failing record —
one whose SMILES yields no molecule — the run aborts with the
ArgumentError: the record is not logged as invalid, the invalid counter
stays 0, processing stops and no summary is logged, contradicting the
claim. -/
theorem claim8_invalid_smiles_crashes :
    compute_descriptors (fun _ => none) (fun _ => true) [] false ["MolWt"]
        [[{ smiles := "XXX", fragments := [] }]]
      = Except.error (RDKitError.argumentNone, [],
          { invalid := 0, total := 1,
            out := ["smiles,", "MolWt", "\n", "\"", "XXX", "\","],
            log := [] }) := by
  rfl

/-- Claim C10: `read_activity` inspects only the first line of the activity
file — on any file with at least one line it returns line one's
`"activity"` field and the remaining lines are ignored (replacing them does
not change the result) — and on an empty file it returns `None` instead of
failing. -/
theorem claim10_read_activity_first_line (l : ActivityLine)
    (rest rest' : List ActivityLine) :
    read_activity (l :: rest) = some l.activity ∧
    read_activity (l :: rest) = read_activity (l :: rest') ∧
    read_activity ([] : List ActivityLine) = none :=
  ⟨rfl, rfl, rfl⟩

end MolecularSimilarity
